import Mathlib

/-!
Verification of the trajectory-cleaning and remaining-track-miles pipeline.

The pipeline operates on per-aircraft surveillance tables (pandas DataFrames
with columns `callsign`, `time`, `lat`, `lon`, `geoaltitude`, `onground`).
We embed a table as a `List Record`; callsigns are numbers, coordinates and
altitudes are exact rationals, and a nullable altitude is an `Option ℚ`
(pandas `NaN` becomes `none`; every comparison with `NaN` is false, which the
embedding reproduces by explicit matches).

The external geodesic-distance routine (`geopy.distance.geodesic`) is kept
abstract: the RTM functions take a distance function `d` on (lat, lon) pairs
as a parameter.
-/

/-- One surveillance sample (a DataFrame row). -/
structure Record where
  callsign : Nat
  time : Int
  lat : ℚ
  lon : ℚ
  geoaltitude : Option ℚ
  onground : Bool
deriving DecidableEq, Repr

/-- A row enriched with the `rtm` column added by `calculate_rtm`. -/
structure ERecord extends Record where
  rtm : ℚ
deriving DecidableEq, Repr

/-- The callsign group of `c`: the subsequence of rows with callsign `c`,
in table order (what `df.groupby('callsign')` hands to the applied function). -/
def groupOf (df : List Record) (c : Nat) : List Record :=
  df.filter (fun r => r.callsign == c)

/-!
### Remaining-track-miles calculator (trackmiles.py)

`calculate_rtm` walks the rows of one track backwards (`for i in
range(len(df)-1, 0, -1)`), keeping an accumulator `rtm` that starts at `0`.
At step `i` it either resets `rtm` to `0` (when row `i` has `onground` set) or
adds the geodesic distance between rows `i-1` and `i`, then appends `rtm`;
after reversing, the appended value lands on row `i-1` and the initial `0`
lands on the last row.  `rtmList` computes the resulting `rtm` column: the
value of row `i-1` is determined by row `i`'s `onground` flag and the value
of row `i`.
-/

/-- The `rtm` column that `calculate_rtm` assigns (`df['rtm'] = distances`). -/
def rtmList (d : ℚ × ℚ → ℚ × ℚ → ℚ) : List Record → List ℚ
  | [] => []
  | [_] => [0]
  | r0 :: r1 :: rest =>
    (if r1.onground then 0
     else (rtmList d (r1 :: rest)).headD 0 + d (r0.lat, r0.lon) (r1.lat, r1.lon))
      :: rtmList d (r1 :: rest)

/-- Function `calculate_rtm`: one track's rows with the `rtm` column attached. -/
def calculate_rtm (d : ℚ × ℚ → ℚ × ℚ → ℚ) (df : List Record) : List ERecord :=
  List.zipWith (fun r v => { toRecord := r, rtm := v }) df (rtmList d df)

/-- Function `calculate_remaining_track_miles`: `df.groupby('callsign').apply(calculate_rtm)`
followed by `reset_index(drop=True)`.  Because `calculate_rtm` returns each
group with its index unchanged, pandas takes the transform path of
`GroupBy.apply` and reindexes the concatenated result back to the original
row order; row `i`, the `k`-th row of its callsign group (`k` = number of
earlier rows with the same callsign), receives entry `k` of its group's `rtm`
column. -/
def calculate_remaining_track_miles (d : ℚ × ℚ → ℚ × ℚ → ℚ) (df : List Record) :
    List ERecord :=
  df.mapIdx (fun i r =>
    { toRecord := r,
      rtm := (rtmList d (groupOf df r.callsign)).getD
        ((df.take i).countP (fun s => s.callsign == r.callsign)) 0 })

/-!
### Concrete inputs for the worked examples

Three points on the equator; the abstract distance function `dEx` realises
the distances of the spec scenarios: 5 km from point 1 to point 2 and
3 km from point 2 to point 3.
-/

/-- Distance function for the worked examples. -/
def dEx : ℚ × ℚ → ℚ × ℚ → ℚ := fun p q =>
  if p = (0, 0) ∧ q = (0, 1) then 5
  else if p = (0, 1) ∧ q = (0, 2) then 3
  else 0

/-- Example track, all points airborne (`on_ground = [false, false, false]`). -/
def trackAir : List Record :=
  [⟨1, 100, 0, 0, some 0, false⟩, ⟨1, 200, 0, 1, some 0, false⟩,
   ⟨1, 300, 0, 2, some 0, false⟩]

/-- Example track whose middle point (t = 200) is on the ground. -/
def trackGnd : List Record :=
  [⟨1, 100, 0, 0, some 0, false⟩, ⟨1, 200, 0, 1, some 0, true⟩,
   ⟨1, 300, 0, 2, some 0, false⟩]

/-!
### Airport filter (data_preprocessing.py / data_processing.py, `filter_flights`)

`filtered_df = df[(df['geoaltitude'] < 1000) & df.apply(within_airport_area)]`
selects the rows that are below 1000 m and inside the 0.1-degree square window
around the airport (for a `NaN` altitude the comparison is false), and
`df[df['callsign'].isin(filtered_df['callsign'].unique())]` then keeps every
row whose callsign has at least one such qualifying row.
-/

/-- Does the row qualify (low altitude and inside the airport window)? -/
def qualifies (a : ℚ × ℚ) (r : Record) : Bool :=
  (match r.geoaltitude with
   | none => false
   | some g => decide (g < 1000)) &&
  decide (|r.lat - a.1| < 0.1) && decide (|r.lon - a.2| < 0.1)

/-- Function `filter_flights df airport_coords`: track-level selection by callsign. -/
def filter_flights (df : List Record) (a : ℚ × ℚ) : List Record :=
  let filtered_df := df.filter (qualifies a)
  df.filter (fun r => filtered_df.any (fun q => q.callsign == r.callsign))

/-!
### Spatial outlier remover (data_preprocessing.py, `remove_outliers`)

`group.quantile(q)` with the default linear interpolation sorts the (non-null)
values `s` and returns `s[j] + γ·(s[j+1] - s[j])` where `h = q·(n-1)`,
`j = ⌊h⌋` and `γ = h - j`.  `filter_outliers` keeps the rows of a callsign
group whose `lon`, `lat` and `geoaltitude` all lie inside
`[Q1 - 1.5·IQR, Q3 + 1.5·IQR]`; a `NaN` altitude fails the comparison and the
row is dropped.  `remove_outliers` applies this per callsign group.
-/

/-- Linear-interpolation quantile of an already sorted list (numpy/pandas
`interpolation='linear'`). -/
def quantileOfSorted (q : ℚ) (s : List ℚ) : ℚ :=
  let h : ℚ := q * ((s.length : ℚ) - 1)
  let j : Nat := (⌊h⌋).toNat
  s.getD j 0 + (h - (⌊h⌋ : ℚ)) * (s.getD (j + 1) 0 - s.getD j 0)

/-- Pandas `Series.quantile q` (pandas default linear interpolation). -/
def quantile (q : ℚ) (xs : List ℚ) : ℚ :=
  quantileOfSorted q (xs.mergeSort (fun a b => decide (a ≤ b)))

/-- Lower IQR fence `Q1 - 1.5·IQR` of a list of values. -/
def lowerFence (xs : List ℚ) : ℚ :=
  quantile 0.25 xs - 1.5 * (quantile 0.75 xs - quantile 0.25 xs)

/-- Upper IQR fence `Q3 + 1.5·IQR` of a list of values. -/
def upperFence (xs : List ℚ) : ℚ :=
  quantile 0.75 xs + 1.5 * (quantile 0.75 xs - quantile 0.25 xs)

/-- The `lon` column of a group. -/
def lonVals (g : List Record) : List ℚ := g.map (·.lon)

/-- The `lat` column of a group. -/
def latVals (g : List Record) : List ℚ := g.map (·.lat)

/-- The non-null part of the `geoaltitude` column of a group (pandas
`quantile` skips `NaN`). -/
def altVals (g : List Record) : List ℚ := g.filterMap (·.geoaltitude)

/-- The row-level bound check of `filter_outliers` for one callsign group. -/
def inBounds (g : List Record) (r : Record) : Bool :=
  decide (lowerFence (lonVals g) ≤ r.lon) && decide (r.lon ≤ upperFence (lonVals g)) &&
  decide (lowerFence (latVals g) ≤ r.lat) && decide (r.lat ≤ upperFence (latVals g)) &&
  (match r.geoaltitude with
   | none => false
   | some alt =>
     decide (lowerFence (altVals g) ≤ alt) && decide (alt ≤ upperFence (altVals g)))

/-- Function `filter_outliers` applied to one callsign group. -/
def filter_outliers (g : List Record) : List Record :=
  g.filter (inBounds g)

/-- The distinct callsigns of a table in the (sorted) order pandas `groupby`
enumerates its groups. -/
def callsignKeys (df : List Record) : List Nat :=
  ((df.map (·.callsign)).dedup).mergeSort (fun a b => decide (a ≤ b))

/-- Function `remove_outliers`: `df.groupby('callsign', group_keys=False).apply(filter_outliers)`
(the groups are concatenated in group order). -/
def remove_outliers (df : List Record) : List Record :=
  (callsignKeys df).flatMap (fun c => filter_outliers (groupOf df c))

/-!
### Altitude smoother (data_preprocessing.py, `remove_outliers_geoaltitude`)

Phase 1 (jump detection): the code first materialises
`prev_geoaltitude = groupby('callsign')['geoaltitude'].shift(1)` and
`altitude_diff = geoaltitude - prev_geoaltitude` for the whole table, and only
then nulls every `geoaltitude` whose `|altitude_diff|` exceeds the threshold —
so every delta is computed from the raw series, never from a nulled value.

Phase 2 (interpolation): `geoaltitude.transform(lambda x: x.interpolate(method='linear'))`
fills a missing value that has a known value before and after it by positional
linear interpolation; a missing value with a known value before it but none
after it is filled with that last known value (pandas' default
`limit_direction='forward'` propagates past the last valid observation); a
missing value with no known value before it stays missing.

Both phases act on each callsign group independently; row order is untouched.
-/

/-- Pandas `shift(1)` of an altitude series (first entry becomes `NaN`). -/
def shift1 (xs : List (Option ℚ)) : List (Option ℚ) :=
  none :: xs.take (xs.length - 1)

/-- The `altitude_diff` column of one group: current minus previous raw
altitude, `none` when either is missing. -/
def altDiffs (xs : List (Option ℚ)) : List (Option ℚ) :=
  List.zipWith
    (fun x p =>
      match x, p with
      | some a, some b => some (a - b)
      | _, _ => none)
    xs (shift1 xs)

/-- Jump detection on one group's altitude series: null every value whose
precomputed delta exceeds the threshold in absolute value. -/
def markJumps (t : ℚ) (xs : List (Option ℚ)) : List (Option ℚ) :=
  List.zipWith
    (fun x d =>
      match d with
      | some d => if t < |d| then none else x
      | none => x)
    xs (altDiffs xs)

/-- The value at index `j` paired with `j`, when it is known. -/
def knownAt (xs : List (Option ℚ)) (j : Nat) : Option (Nat × ℚ) :=
  (xs.getD j none).map (fun v => (j, v))

/-- The nearest known value strictly before index `i`. -/
def prevKnown (xs : List (Option ℚ)) (i : Nat) : Option (Nat × ℚ) :=
  ((List.range i).filterMap (knownAt xs)).getLast?

/-- The nearest known value strictly after index `i`. -/
def nextKnown (xs : List (Option ℚ)) (i : Nat) : Option (Nat × ℚ) :=
  (((List.range xs.length).drop (i + 1)).filterMap (knownAt xs)).head?

/-- Pandas `Series.interpolate(method='linear')` at one position. -/
def interpAt (xs : List (Option ℚ)) (i : Nat) : Option ℚ :=
  match xs.getD i none with
  | some v => some v
  | none =>
    match prevKnown xs i, nextKnown xs i with
    | none, _ => none
    | some (_, vj), none => some vj
    | some (j, vj), some (k, vk) =>
      some (vj + (vk - vj) * (((i : ℚ) - (j : ℚ)) / ((k : ℚ) - (j : ℚ))))

/-- Pandas `Series.interpolate(method='linear')` on one group's altitude series. -/
def interpolate (xs : List (Option ℚ)) : List (Option ℚ) :=
  (List.range xs.length).map (interpAt xs)

/-- Both phases of the altitude smoother on one group's altitude series. -/
def smoothAltitudes (t : ℚ) (xs : List (Option ℚ)) : List (Option ℚ) :=
  interpolate (markJumps t xs)

/-- Function `remove_outliers_geoaltitude df threshold`: each row's altitude is replaced
by the corresponding entry of its callsign group's smoothed series (row `i` is
entry `k` of its group, `k` = number of earlier rows with the same callsign). -/
def remove_outliers_geoaltitude (t : ℚ) (df : List Record) : List Record :=
  df.mapIdx (fun i r =>
    { r with
      geoaltitude :=
        (smoothAltitudes t ((groupOf df r.callsign).map (·.geoaltitude))).getD
          ((df.take i).countP (fun s => s.callsign == r.callsign)) none })

/-!
### Further concrete inputs used by the witnesses
-/

/-- A single-callsign table with four rows and constant coordinates. -/
def dfQ4 : List Record :=
  [⟨1, 1, 5, 6, some 7, false⟩, ⟨1, 2, 5, 6, some 7, false⟩,
   ⟨1, 3, 5, 6, some 7, false⟩, ⟨1, 4, 5, 6, some 7, false⟩]

/-- A single-callsign table with three rows and constant coordinates. -/
def dfQ3 : List Record :=
  [⟨1, 1, 5, 6, some 7, false⟩, ⟨1, 2, 5, 6, some 7, false⟩,
   ⟨1, 3, 5, 6, some 7, false⟩]

/-- A single track whose second (trailing) altitude is missing. -/
def dfTrail : List Record :=
  [⟨1, 100, 0, 0, some 1000, false⟩, ⟨1, 200, 0, 1, none, false⟩]

/-!
### Helper lemmas
-/

theorem zipWith_mk_map_rtm : ∀ (as : List Record) (bs : List ℚ), as.length = bs.length →
    (List.zipWith (fun r v => ({ toRecord := r, rtm := v } : ERecord)) as bs).map (·.rtm) = bs
  | [], [], _ => rfl
  | [], _ :: _, h => by simp at h
  | _ :: _, [], h => by simp at h
  | a :: as, b :: bs, h => by
    simp only [List.zipWith_cons_cons, List.map_cons]
    rw [zipWith_mk_map_rtm as bs (by simpa using h)]

theorem rtmList_length (d : ℚ × ℚ → ℚ × ℚ → ℚ) :
    ∀ df : List Record, (rtmList d df).length = df.length
  | [] => rfl
  | [_] => rfl
  | r0 :: r1 :: rest => by
    have ih := rtmList_length d (r1 :: rest)
    simp only [rtmList, List.length_cons]
    simpa using ih

theorem calculate_rtm_map_rtm (d : ℚ × ℚ → ℚ × ℚ → ℚ) (df : List Record) :
    (calculate_rtm d df).map (·.rtm) = rtmList d df :=
  zipWith_mk_map_rtm df (rtmList d df) (rtmList_length d df).symm

theorem qos25_one (a : ℚ) : quantileOfSorted 0.25 [a] = a := by
  norm_num [quantileOfSorted]

theorem qos75_one (a : ℚ) : quantileOfSorted 0.75 [a] = a := by
  norm_num [quantileOfSorted]

theorem qos25_two (a b : ℚ) : quantileOfSorted 0.25 [a, b] = a + 0.25 * (b - a) := by
  norm_num [quantileOfSorted]

theorem qos75_two (a b : ℚ) : quantileOfSorted 0.75 [a, b] = a + 0.75 * (b - a) := by
  norm_num [quantileOfSorted]

theorem qos25_three (a b c : ℚ) : quantileOfSorted 0.25 [a, b, c] = a + 0.5 * (b - a) := by
  norm_num [quantileOfSorted]

theorem qos75_three (a b c : ℚ) : quantileOfSorted 0.75 [a, b, c] = b + 0.5 * (c - b) := by
  norm_num [quantileOfSorted, show ((1 : ℤ)).toNat = 1 from rfl]

theorem fences_small (xs : List ℚ) (h3 : xs.length ≤ 3) (x : ℚ) (hx : x ∈ xs) :
    lowerFence xs ≤ x ∧ x ≤ upperFence xs := by
  have hperm := List.mergeSort_perm xs (fun a b => decide (a ≤ b))
  have htrans : ∀ a b c : ℚ, decide (a ≤ b) = true → decide (b ≤ c) = true →
      decide (a ≤ c) = true := by
    intro a b c hab hbc
    simp only [decide_eq_true_eq] at hab hbc ⊢
    exact le_trans hab hbc
  have htotal : ∀ a b : ℚ, (decide (a ≤ b) || decide (b ≤ a)) = true := by
    intro a b
    simpa using le_total a b
  have hsort := @List.sorted_mergeSort ℚ (fun a b => decide (a ≤ b)) htrans htotal xs
  have hlen : (xs.mergeSort (fun a b => decide (a ≤ b))).length ≤ 3 := by
    rw [hperm.length_eq]
    exact h3
  have hmem : x ∈ xs.mergeSort (fun a b => decide (a ≤ b)) := hperm.mem_iff.mpr hx
  unfold lowerFence upperFence quantile
  generalize hs : xs.mergeSort (fun a b => decide (a ≤ b)) = s at hsort hlen hmem ⊢
  match s, hsort, hlen, hmem with
  | [], _, _, hmem => simp at hmem
  | [a], _, _, hmem =>
    rw [List.mem_singleton] at hmem
    subst hmem
    rw [qos25_one, qos75_one]
    constructor <;> linarith
  | [a, b], hsort, _, hmem =>
    simp only [List.pairwise_cons, List.mem_singleton, List.mem_cons,
      decide_eq_true_eq, List.not_mem_nil] at hsort hmem
    have hab : a ≤ b := by
      have := hsort.1 b
      simpa using this
    rw [qos25_two, qos75_two]
    rcases hmem with h | h | h
    · subst h; constructor <;> linarith
    · subst h; constructor <;> linarith
    · simp at h
  | [a, b, c], hsort, _, hmem =>
    simp only [List.pairwise_cons, List.mem_cons, List.mem_singleton,
      decide_eq_true_eq, List.not_mem_nil] at hsort hmem
    have hab : a ≤ b := by
      have := hsort.1 b
      simpa using this
    have hac : a ≤ c := by
      have := hsort.1 c
      simpa using this
    have hbc : b ≤ c := by
      have := hsort.2.1 c
      simpa using this
    rw [qos25_three, qos75_three]
    rcases hmem with h | h | h | h
    · subst h; constructor <;> linarith
    · subst h; constructor <;> linarith
    · subst h; constructor <;> linarith
    · simp at h
  | a :: b :: c :: e :: t, _, hlen, _ => simp at hlen

theorem mem_callsignKeys (df : List Record) (r : Record) (hr : r ∈ df) :
    r.callsign ∈ callsignKeys df := by
  unfold callsignKeys
  rw [(List.mergeSort_perm _ _).mem_iff, List.mem_dedup]
  exact List.mem_map_of_mem _ hr

theorem rtmList_getLast (d : ℚ × ℚ → ℚ × ℚ → ℚ) :
    ∀ df : List Record, df ≠ [] → (rtmList d df).getLast? = some 0
  | [], h => absurd rfl h
  | [_], _ => by simp [rtmList]
  | r0 :: r1 :: rest, _ => by
    have ih := rtmList_getLast d (r1 :: rest) (by simp)
    have hne : rtmList d (r1 :: rest) ≠ [] := by
      intro he
      have := rtmList_length d (r1 :: rest)
      rw [he] at this
      simp at this
    obtain ⟨y, ys, hys⟩ := List.exists_cons_of_ne_nil hne
    rw [rtmList]
    rw [hys, List.getLast?_cons_cons, ← hys, ih]

theorem getD_in_range {α : Type} {xs : List α} {i : Nat} {d : α}
    (h : i < xs.length) : xs.getD i d = xs[i] := by
  rw [List.getD_eq_getElem?_getD, List.getElem?_eq_getElem h]
  rfl

theorem getD_some_lt {xs : List (Option ℚ)} {i : Nat} {a : ℚ}
    (h : xs.getD i none = some a) : i < xs.length := by
  by_contra hc
  rw [List.getD_eq_getElem?_getD, List.getElem?_eq_none (by omega)] at h
  simp at h

theorem getD_markJumps (t : ℚ) (xs : List (Option ℚ)) (i : Nat) (a b : ℚ)
    (ha : xs.getD i none = some a) (hb : xs.getD (i + 1) none = some b) :
    (markJumps t xs).getD (i + 1) none = if t < |b - a| then none else some b := by
  have hib : i + 1 < xs.length := getD_some_lt hb
  have hia : i < xs.length := by omega
  have hxa : xs[i]? = some (some a) := by
    rw [List.getElem?_eq_getElem hia]
    rw [getD_in_range hia] at ha
    rw [ha]
  have hxb : xs[i + 1]? = some (some b) := by
    rw [List.getElem?_eq_getElem hib]
    rw [getD_in_range hib] at hb
    rw [hb]
  have hshift : (shift1 xs)[i + 1]? = some (some a) := by
    unfold shift1
    rw [List.getElem?_cons_succ, List.getElem?_take]
    rw [if_pos (by omega)]
    exact hxa
  have hdiff : (altDiffs xs)[i + 1]? = some (some (b - a)) := by
    unfold altDiffs
    rw [List.getElem?_zipWith, hxb, hshift]
  rw [List.getD_eq_getElem?_getD, markJumps, List.getElem?_zipWith, hxb, hdiff]
  rfl

theorem interpolate_getD (xs : List (Option ℚ)) (i : Nat) (h : i < xs.length) :
    (interpolate xs).getD i none = interpAt xs i := by
  rw [List.getD_eq_getElem?_getD, interpolate, List.getElem?_map, List.getElem?_range h]
  rfl

theorem prevKnown_eq_none (xs : List (Option ℚ)) (i : Nat)
    (h : ∀ j, j < i → xs.getD j none = none) : prevKnown xs i = none := by
  unfold prevKnown
  rw [List.filterMap_eq_nil_iff.mpr ?_]
  · rfl
  · intro j hj
    rw [List.mem_range] at hj
    unfold knownAt
    rw [h j hj]
    rfl

/-!
### Claim theorems
-/

/-- Claim C1 (code bug): on the track with times [100, 200, 300],
`on_ground = [false, true, false]` and pairwise distances 5 km and 3 km, the
code assigns `rtm = [0, 3, 0]`, not the `[5, 0, 0]` the spec's scenario
expects: the backward loop checks row `i`'s `onground` flag but stores the
updated accumulator on row `i-1`, so the reset lands one row too early and
the grounded row itself keeps the distance accumulated beyond it. -/
theorem rtm_ground_example_code :
    (calculate_rtm dEx trackGnd).map (·.rtm) = [0, 3, 0] ∧
    ([0, 3, 0] : List ℚ) ≠ [5, 0, 0] := by
  constructor
  · norm_num [calculate_rtm, rtmList, trackGnd, dEx]
  · intro h
    rw [List.cons.injEq] at h
    norm_num at h

/-- Claim C2 (code bug): on the same grounded track the `on_ground = true`
record at t = 200 is assigned `rtm = 3`, not `0`: the reset triggered by its
flag is stored on the preceding record instead. -/
theorem rtm_onground_value_code :
    ((calculate_rtm dEx trackGnd).map (·.rtm)).getD 1 0 = 3 ∧
    (trackGnd.getD 1 ⟨0, 0, 0, 0, none, false⟩).onground = true ∧
    (3 : ℚ) ≠ 0 := by
  refine ⟨?_, ?_, by norm_num⟩
  · norm_num [calculate_rtm, rtmList, trackGnd, dEx]
  · norm_num [trackGnd]

/-- Claim C3: on a 3-point track at times [100, 200, 300] with all points
airborne and pairwise geodesic distances 5 km and 3 km, `calculate_rtm`
assigns `remaining_track_miles = [8, 3, 0]` (backward accumulation). -/
theorem rtm_airborne_example (d : ℚ × ℚ → ℚ × ℚ → ℚ) (r1 r2 r3 : Record)
    (h1 : r1.onground = false) (h2 : r2.onground = false) (h3 : r3.onground = false)
    (ht1 : r1.time = 100) (ht2 : r2.time = 200) (ht3 : r3.time = 300)
    (hd1 : d (r1.lat, r1.lon) (r2.lat, r2.lon) = 5)
    (hd2 : d (r2.lat, r2.lon) (r3.lat, r3.lon) = 3) :
    (calculate_rtm d [r1, r2, r3]).map (·.rtm) = [8, 3, 0] := by
  rw [calculate_rtm_map_rtm]
  norm_num [rtmList, h2, h3, hd1, hd2]

/-- Witness for C3 at the concrete example track. -/
theorem rtm_airborne_example_witness :
    ((⟨1, 100, 0, 0, some 0, false⟩ : Record).onground = false ∧
      dEx (0, 0) (0, 1) = 5 ∧ dEx (0, 1) (0, 2) = 3) ∧
    (calculate_rtm dEx
        [⟨1, 100, 0, 0, some 0, false⟩, ⟨1, 200, 0, 1, some 0, false⟩,
         ⟨1, 300, 0, 2, some 0, false⟩]).map (·.rtm) = [8, 3, 0] :=
  ⟨⟨rfl, by norm_num [dEx], by norm_num [dEx]⟩,
   rtm_airborne_example dEx _ _ _ rfl rfl rfl rfl rfl rfl
     (by norm_num [dEx]) (by norm_num [dEx])⟩

/-- Claim C4: the chronologically last record of a non-empty track is
assigned `rtm = 0`, and a single-record track is assigned `[0]` whatever its
`onground` flag. -/
theorem rtm_terminal (d : ℚ × ℚ → ℚ × ℚ → ℚ) (df : List Record) (h : df ≠ []) :
    ((calculate_rtm d df).map (·.rtm)).getLast? = some 0 ∧
    ∀ r : Record, (calculate_rtm d [r]).map (·.rtm) = [0] := by
  constructor
  · rw [calculate_rtm_map_rtm]
    exact rtmList_getLast d df h
  · intro r
    rw [calculate_rtm_map_rtm]
    simp [rtmList]

/-- Witness for C4 at a one-record, on-ground track. -/
theorem rtm_terminal_witness :
    ([(⟨1, 100, 0, 0, some 0, true⟩ : Record)] ≠ []) ∧
    ((calculate_rtm dEx [⟨1, 100, 0, 0, some 0, true⟩]).map (·.rtm)).getLast? =
      some 0 :=
  ⟨by simp, (rtm_terminal dEx [⟨1, 100, 0, 0, some 0, true⟩] (by simp)).1⟩

/-- Claim C5 (counterexample): a trailing missing altitude with a known value
before it does NOT remain missing — the interpolation phase fills it with the
last known value (`[some 1000, none]` becomes `[some 1000, some 1000]`). -/
theorem altitude_trailing_filled_cex :
    (remove_outliers_geoaltitude 200 dfTrail).map (·.geoaltitude) =
      [some 1000, some 1000] ∧
    (some (1000 : ℚ) : Option ℚ) ≠ none := by
  constructor
  · rfl
  · simp

/-- Claim C5 (amended): after the interpolation phase a missing altitude with
no known value at or before its position stays missing (so leading missing
values and fully-missing tracks are preserved), while a missing value with a
known predecessor but no known successor is filled with that predecessor's
value. -/
theorem interpolate_unbracketed (xs : List (Option ℚ)) (i : Nat) :
    ((∀ j, j ≤ i → xs.getD j none = none) → (interpolate xs).getD i none = none) ∧
    (∀ j vj, xs.getD i none = none → prevKnown xs i = some (j, vj) →
      nextKnown xs i = none → i < xs.length →
      (interpolate xs).getD i none = some vj) := by
  constructor
  · intro h
    by_cases hi : i < xs.length
    · rw [interpolate_getD xs i hi]
      unfold interpAt
      rw [h i le_rfl, prevKnown_eq_none xs i (fun j hj => h j (le_of_lt hj))]
    · rw [List.getD_eq_getElem?_getD, List.getElem?_eq_none]
      · rfl
      · simp only [interpolate, List.length_map, List.length_range]
        omega
  · intro j vj hx hp hn hi
    rw [interpolate_getD xs i hi]
    unfold interpAt
    rw [hx, hp, hn]

/-- Witness for C5 (amended): a leading missing value stays missing, and a
trailing missing value is filled with the last known value. -/
theorem interpolate_unbracketed_witness :
    ((∀ j, j ≤ 0 → ([none, some 5] : List (Option ℚ)).getD j none = none) ∧
      (interpolate [none, some 5]).getD 0 none = none) ∧
    (prevKnown [some 1000, none] 1 = some (0, 1000) ∧
      nextKnown [some 1000, none] 1 = none ∧
      (interpolate [some 1000, none]).getD 1 none = some 1000) := by
  have h1 : ∀ j, j ≤ 0 → ([none, some 5] : List (Option ℚ)).getD j none = none := by
    intro j hj
    interval_cases j
    rfl
  have hx : ([some 1000, none] : List (Option ℚ)).getD 1 none = none := rfl
  have hp : prevKnown [some (1000 : ℚ), none] 1 = some (0, 1000) := rfl
  have hn : nextKnown [some (1000 : ℚ), none] 1 = none := rfl
  exact ⟨⟨h1, (interpolate_unbracketed [none, some 5] 0).1 h1⟩,
    ⟨hp, hn, (interpolate_unbracketed [some 1000, none] 1).2 0 1000 hx hp hn
      (by norm_num)⟩⟩

/-- Claim C6: the jump detector computes every delta from the raw altitude
series — on `[1000, 1050, 5000, 1100]` with threshold 200 the deltas are
`[NaN, 50, 3950, -3900]` (the delta at index 3 is taken against the raw value
5000) and both index 2 and index 3 are nulled — and in general the marked
value at position `i+1` is determined by the raw values at `i` and `i+1`
alone, so nulling a value never changes the delta computed for the following
record. -/
theorem markJumps_deferred :
    altDiffs [some 1000, some 1050, some 5000, some 1100] =
      [none, some 50, some 3950, some (-3900)] ∧
    markJumps 200 [some 1000, some 1050, some 5000, some 1100] =
      [some 1000, some 1050, none, none] ∧
    ∀ (t : ℚ) (xs : List (Option ℚ)) (i : Nat) (a b : ℚ),
      xs.getD i none = some a → xs.getD (i + 1) none = some b →
      (markJumps t xs).getD (i + 1) none = if t < |b - a| then none else some b := by
  refine ⟨?_, ?_, getD_markJumps⟩
  · norm_num [altDiffs, shift1]
  · norm_num [markJumps, altDiffs, shift1]

/-- Witness for C6: position 1 of `[1000, 5000, 5100]` is itself nulled, yet
the delta for position 2 is computed against the raw 5000, so position 2 is
kept. -/
theorem markJumps_deferred_witness :
    (([some 1000, some 5000, some 5100] : List (Option ℚ)).getD 1 none = some 5000 ∧
      ([some 1000, some 5000, some 5100] : List (Option ℚ)).getD 2 none = some 5100) ∧
    (markJumps 200 [some 1000, some 5000, some 5100]).getD 2 none =
      (if (200 : ℚ) < |5100 - 5000| then none else some 5100) :=
  ⟨⟨rfl, rfl⟩, markJumps_deferred.2.2 200 _ 1 5000 5100 rfl rfl⟩

/-- Claim C7: the airport filter is idempotent — filtering an already
filtered table with the same airport coordinates returns it unchanged,
because the filter is a track-level selector: any qualifying record keeps its
whole callsign group, and that qualifying record itself survives the first
pass. -/
theorem filter_flights_idempotent (df : List Record) (a : ℚ × ℚ) :
    filter_flights (filter_flights df a) a = filter_flights df a := by
  have hchar : ∀ (l : List Record) (s : Record), s ∈ filter_flights l a ↔
      s ∈ l ∧ ∃ q, q ∈ l ∧ qualifies a q = true ∧ (q.callsign == s.callsign) = true := by
    intro l s
    constructor
    · intro h
      rw [show filter_flights l a =
          l.filter (fun r => (l.filter (qualifies a)).any
            (fun q => q.callsign == r.callsign)) from rfl,
        List.mem_filter, List.any_eq_true] at h
      obtain ⟨h1, q, hq, hbeq⟩ := h
      rw [List.mem_filter] at hq
      exact ⟨h1, q, hq.1, hq.2, hbeq⟩
    · rintro ⟨h1, q, hq, hqual, hbeq⟩
      rw [show filter_flights l a =
          l.filter (fun r => (l.filter (qualifies a)).any
            (fun q => q.callsign == r.callsign)) from rfl,
        List.mem_filter, List.any_eq_true]
      exact ⟨h1, q, List.mem_filter.mpr ⟨hq, hqual⟩, hbeq⟩
  rw [show filter_flights (filter_flights df a) a =
      (filter_flights df a).filter (fun r => ((filter_flights df a).filter (qualifies a)).any
        (fun q => q.callsign == r.callsign)) from rfl]
  apply List.filter_eq_self.mpr
  intro r hr
  rw [List.any_eq_true]
  obtain ⟨hrdf, q, hqdf, hqual, hbeq⟩ := (hchar df r).mp hr
  have hqout : q ∈ filter_flights df a :=
    (hchar df q).mpr ⟨hqdf, q, hqdf, hqual, by simp⟩
  exact ⟨q, List.mem_filter.mpr ⟨hqout, hqual⟩, hbeq⟩

/-- Claim C8: every record that survives `remove_outliers` has its longitude,
latitude and altitude inside the inclusive IQR fences
`[Q1 - 1.5·IQR, Q3 + 1.5·IQR]` computed from its own track's pre-removal
values. -/
theorem remove_outliers_bounds (df : List Record) (r : Record)
    (hr : r ∈ remove_outliers df)
    (h4 : 4 ≤ (groupOf df r.callsign).length)
    (hall : ∀ s ∈ groupOf df r.callsign, s.geoaltitude ≠ none) :
    (lowerFence (lonVals (groupOf df r.callsign)) ≤ r.lon ∧
      r.lon ≤ upperFence (lonVals (groupOf df r.callsign))) ∧
    (lowerFence (latVals (groupOf df r.callsign)) ≤ r.lat ∧
      r.lat ≤ upperFence (latVals (groupOf df r.callsign))) ∧
    ∃ alt, r.geoaltitude = some alt ∧
      lowerFence (altVals (groupOf df r.callsign)) ≤ alt ∧
      alt ≤ upperFence (altVals (groupOf df r.callsign)) := by
  rw [remove_outliers, List.mem_flatMap] at hr
  obtain ⟨c, hc, hrc⟩ := hr
  rw [filter_outliers, List.mem_filter] at hrc
  obtain ⟨hrg, hb⟩ := hrc
  have hcall : r.callsign = c := by
    rw [groupOf, List.mem_filter] at hrg
    simpa using hrg.2
  subst hcall
  cases hg : r.geoaltitude with
  | none => simp [inBounds, hg] at hb
  | some alt =>
    simp only [inBounds, hg, Bool.and_eq_true, decide_eq_true_eq] at hb
    obtain ⟨⟨⟨⟨l1, l2⟩, l3⟩, l4⟩, l5, l6⟩ := hb
    exact ⟨⟨l1, l2⟩, ⟨l3, l4⟩, alt, rfl, l5, l6⟩

/-- Claim C9: a callsign group with fewer than four records (and no missing
altitude) loses no record to `filter_outliers`: the linearly interpolated
quartile fences of 1, 2 or 3 values always contain all of them, so the whole
group also reappears in `remove_outliers`. -/
theorem filter_outliers_small_track (df : List Record) (c : Nat)
    (hlen : (groupOf df c).length < 4)
    (hall : ∀ s ∈ groupOf df c, s.geoaltitude ≠ none) :
    filter_outliers (groupOf df c) = groupOf df c ∧
    ∀ r ∈ groupOf df c, r ∈ remove_outliers df := by
  have hkeep : ∀ r ∈ groupOf df c, inBounds (groupOf df c) r = true := by
    intro r hr
    have hlon := fences_small (lonVals (groupOf df c))
      (by simp only [lonVals, List.length_map]; omega) r.lon (List.mem_map_of_mem _ hr)
    have hlat := fences_small (latVals (groupOf df c))
      (by simp only [latVals, List.length_map]; omega) r.lat (List.mem_map_of_mem _ hr)
    cases hg : r.geoaltitude with
    | none => exact absurd hg (hall r hr)
    | some alt =>
      have hle := List.length_filterMap_le (fun s : Record => s.geoaltitude) (groupOf df c)
      have halt := fences_small (altVals (groupOf df c))
        (by simp only [altVals]; omega) alt (List.mem_filterMap.mpr ⟨r, hr, hg⟩)
      simp only [inBounds, hg, Bool.and_eq_true, decide_eq_true_eq]
      exact ⟨⟨⟨⟨hlon.1, hlon.2⟩, hlat.1⟩, hlat.2⟩, halt.1, halt.2⟩
  have hself : filter_outliers (groupOf df c) = groupOf df c := by
    rw [filter_outliers]
    exact List.filter_eq_self.mpr hkeep
  refine ⟨hself, ?_⟩
  intro r hr
  rw [remove_outliers, List.mem_flatMap]
  have hrc : r.callsign = c := by
    rw [groupOf, List.mem_filter] at hr
    simpa using hr.2
  have hcmem : c ∈ callsignKeys df := by
    rw [← hrc]
    exact mem_callsignKeys df r (by rw [groupOf, List.mem_filter] at hr; exact hr.1)
  exact ⟨c, hcmem, by rw [hself]; exact hr⟩

/-- Claim C10: `calculate_remaining_track_miles` keeps the input's row count
and row order and changes no existing column — stripping the added `rtm`
column gives back the input table exactly (in particular the relative order
of records within each track is preserved). -/
theorem calculate_rtm_preserves_rows (d : ℚ × ℚ → ℚ × ℚ → ℚ) (df : List Record) :
    (calculate_remaining_track_miles d df).map (·.toRecord) = df := by
  rw [calculate_remaining_track_miles, List.mapIdx_eq_enum_map, List.map_map]
  exact List.enum_map_snd df

/-- Witness for C8 at a four-record single-callsign table. -/
theorem remove_outliers_bounds_witness :
    ((⟨1, 1, 5, 6, some 7, false⟩ : Record) ∈ remove_outliers dfQ4 ∧
      4 ≤ (groupOf dfQ4 1).length ∧ ∀ s ∈ groupOf dfQ4 1, s.geoaltitude ≠ none) ∧
    ((lowerFence (lonVals (groupOf dfQ4 1)) ≤ 6 ∧
        6 ≤ upperFence (lonVals (groupOf dfQ4 1))) ∧
      (lowerFence (latVals (groupOf dfQ4 1)) ≤ 5 ∧
        5 ≤ upperFence (latVals (groupOf dfQ4 1))) ∧
      ∃ alt, (some (7 : ℚ) : Option ℚ) = some alt ∧
        lowerFence (altVals (groupOf dfQ4 1)) ≤ alt ∧
        alt ≤ upperFence (altVals (groupOf dfQ4 1))) := by
  have hkeys : callsignKeys dfQ4 = [1] := by
    simp [callsignKeys, dfQ4]
  have hg : groupOf dfQ4 1 = dfQ4 := by
    simp [groupOf, dfQ4]
  have hin : inBounds dfQ4 (⟨1, 1, 5, 6, some 7, false⟩ : Record) = true := by
    have hms6 : ([6, 6, 6, 6] : List ℚ).mergeSort (fun a b => decide (a ≤ b)) = [6, 6, 6, 6] :=
      List.mergeSort_of_sorted (by decide)
    have hms5 : ([5, 5, 5, 5] : List ℚ).mergeSort (fun a b => decide (a ≤ b)) = [5, 5, 5, 5] :=
      List.mergeSort_of_sorted (by decide)
    have hms7 : ([7, 7, 7, 7] : List ℚ).mergeSort (fun a b => decide (a ≤ b)) = [7, 7, 7, 7] :=
      List.mergeSort_of_sorted (by decide)
    have halt : altVals dfQ4 = [7, 7, 7, 7] := by
      simp [altVals, dfQ4, List.filterMap_cons]
    have hlon : lonVals dfQ4 = [6, 6, 6, 6] := by
      simp [lonVals, dfQ4]
    have hlat : latVals dfQ4 = [5, 5, 5, 5] := by
      simp [latVals, dfQ4]
    norm_num [inBounds, hlon, hlat, halt, lowerFence, upperFence, quantile,
      hms5, hms6, hms7, quantileOfSorted, show ((2 : ℤ)).toNat = 2 from rfl]
  have hmem : (⟨1, 1, 5, 6, some 7, false⟩ : Record) ∈ remove_outliers dfQ4 := by
    rw [remove_outliers, hkeys]
    simp only [List.flatMap_cons, List.flatMap_nil, List.append_nil]
    rw [hg, filter_outliers]
    exact List.mem_filter.mpr ⟨by simp [dfQ4], hin⟩
  have h4 : 4 ≤ (groupOf dfQ4 1).length := by
    rw [hg]
    simp [dfQ4]
  have hall : ∀ s ∈ groupOf dfQ4 1, s.geoaltitude ≠ none := by decide
  exact ⟨⟨hmem, h4, hall⟩, remove_outliers_bounds dfQ4 _ hmem h4 hall⟩

/-- Witness for C9 at a three-record single-callsign table. -/
theorem filter_outliers_small_track_witness :
    ((groupOf dfQ3 1).length < 4 ∧ ∀ s ∈ groupOf dfQ3 1, s.geoaltitude ≠ none) ∧
    (filter_outliers (groupOf dfQ3 1) = groupOf dfQ3 1 ∧
      ∀ r ∈ groupOf dfQ3 1, r ∈ remove_outliers dfQ3) := by
  have h1 : (groupOf dfQ3 1).length < 4 := by decide
  have h2 : ∀ s ∈ groupOf dfQ3 1, s.geoaltitude ≠ none := by decide
  exact ⟨⟨h1, h2⟩, filter_outliers_small_track dfQ3 1 h1 h2⟩
